import Mathlib

/-
Verification of the anime resolve-and-cache service (src/main.py).

The store is modelled as a list of documents, in insertion order, matching a
MongoDB collection as the code uses it: `find_one` returns the first document
matching the filter, `update_one` rewrites the first matching document, and
`insert_one` appends unconditionally.  External collaborators (the Groq name
refiner, the Jikan metadata endpoint, the Google custom-search endpoint) are
parameters of the pipeline: each is a function returning `Option`, with `none`
standing for both an explicit miss and a raised/ caught network error, exactly
the cases the source code folds together in its `try/except` blocks.
-/

namespace AnimeApi

/-- Python `str.strip()` on a character list: drop leading and trailing
whitespace. -/
def stripChars (l : List Char) : List Char :=
  ((l.dropWhile Char.isWhitespace).reverse.dropWhile Char.isWhitespace).reverse

/-- Python `s.strip()`. -/
def stripStr (s : String) : String :=
  (stripChars s.toList).asString

/-- Python `s.lower().strip()` as performed on the incoming query
(src/main.py line 133). -/
def normalize (q : String) : String :=
  (stripChars (q.toList.map Char.toLower)).asString

/-- Python `s.replace(a, b)` where both arguments are single characters. -/
def replaceChar (s : String) (a b : Char) : String :=
  (s.toList.map (fun c => if c = a then b else c)).asString

/-- `clean_query.replace(" ", "-")` (src/main.py line 166). -/
def slugOf (s : String) : String := replaceChar s ' ' '-'

/-- `slug.replace("-", " ")` as done by the view and action routes
(src/main.py lines 198 and 217). -/
def termOfSlug (slug : String) : String := replaceChar slug '-' ' '

/-- Substring test on character lists (Python `needle in haystack`). -/
def containsSub : List Char → List Char → Bool
  | n, [] => n.isEmpty
  | n, c :: rest => n.isPrefixOf (c :: rest) || containsSub n rest

/-- Python `needle in haystack` on strings. -/
def strContains (haystack needle : String) : Bool :=
  containsSub needle.toList haystack.toList

/-- The metadata record produced by `get_hd_anime_info`: title, synopsis and
image of the resolved anime. -/
structure AnimeInfo where
  title : String
  synopsis : String
  image : String
deriving DecidableEq, Repr

/-- A stored document of the `links` collection, with every field the
resolution pipeline writes (src/main.py lines 169-178).  Documents are
modelled with the `telegram_links` field always present, as every document
written by this code has it. -/
structure Entry where
  search_term : String
  title : String
  synopsis : String
  thumbnail : String
  telegram_links : List String
  generated_url : String
  views : Int
  likes : Int
  dislikes : Int
  reports : Int
  liked_ips : List String
  disliked_ips : List String
deriving DecidableEq, Repr

/-- The collection: documents in insertion order. -/
abbrev Store := List Entry

/-- `collection.find_one(\x7b"search_term": k\x7d)`: first document whose
`search_term` equals `k`. -/
def find_one : Store → String → Option Entry
  | [], _ => none
  | e :: rest, k => if e.search_term = k then some e else find_one rest k

/-- `collection.insert_one(d)`: unconditional append; the operation never
inspects `search_term` and never fails. -/
def insert_one (s : Store) (d : Entry) : Store := s ++ [d]

/-- `collection.update_one(\x7b"search_term": k\x7d, u)`: rewrite the first
document matching `k` with the combined update `f`; no-op when none
matches. -/
def update_one : Store → String → (Entry → Entry) → Store
  | [], _, _ => []
  | e :: rest, k, f => if e.search_term = k then f e :: rest else e :: update_one rest k f

/-- Mongo `$pull`: remove every occurrence of `x`. -/
def pull (l : List String) (x : String) : List String := l.filter (fun y => y ≠ x)

/-- Mongo `$addToSet`: append `x` unless already present. -/
def addToSet (l : List String) (x : String) : List String :=
  if x ∈ l then l else l ++ [x]

/-- `google_search_api`'s result-scanning loop (src/main.py lines 85-94):
append each qualifying link, stopping once four have been collected. -/
def collectValid (valid : String → Bool) : List String → List String → List String
  | [], acc => acc
  | link :: rest, acc =>
    let acc2 := if valid link then acc ++ [link] else acc
    if 4 ≤ acc2.length then acc2 else collectValid valid rest acc2

/-- The strict link filter (src/main.py line 89): must contain `t.me/` and
contain neither `facebook.com` nor `instagram.com`. -/
def validLink (link : String) : Bool :=
  strContains link "t.me/" && !strContains link "facebook.com" && !strContains link "instagram.com"

/-- `google_search_api` (src/main.py lines 71-100).  `fetch` models the HTTP
request for a search-query string, returning the `link` fields of the `items`
of the JSON response; `none` stands for a request error or a response without
`items`, after which `valid_links` is still empty.  If no qualifying link was
collected, the single placeholder link is substituted. -/
def google_search_api (fetch : String → Option (List String)) (query : String) : List String :=
  let search_query := query ++ " hindi dubbed site:t.me"
  let valid_links :=
    match fetch search_query with
    | none => []
    | some items => collectValid validLink items []
  if valid_links = [] then ["https://t.me/"] else valid_links

/-- The result returned by `/api/search`, without the wall-clock
`response_time` field.  `success` carries `source`, `data.title`,
`data.links` and `data.website_link`; `error` carries `message`. -/
inductive SearchResult where
  | success (source : String) (title : String) (links : List String) (website_link : String)
  | error (message : String)
deriving DecidableEq, Repr

/-- Step 2 of `search_anime` (src/main.py lines 150-157): the AI-refined
name, stripped; on refiner failure the raw query is used unmodified. -/
def aiNameOf (refiner : String → Option String) (query : String) : String :=
  match refiner query with
  | some n => stripStr n
  | none => query

/-- `search_anime` (src/main.py lines 130-194).  `refiner` models the Groq
call on the raw query (`none` = exception, falling back to the raw query;
a returned name is stripped as in line 156); `metadata` models
`get_hd_anime_info` (`none` = not found or any error); `fetch` models the
Google request inside `google_search_api`.  Returns the response together
with the collection after the call. -/
def search_anime (refiner : String → Option String)
    (metadata : String → Option AnimeInfo)
    (fetch : String → Option (List String))
    (base_url : String) (query : String) (store : Store) :
    SearchResult × Store :=
  let clean_query := normalize query
  match find_one store clean_query with
  | some cached =>
    (.success "database" cached.title cached.telegram_links cached.generated_url, store)
  | none =>
    let ai_name := aiNameOf refiner query
    match metadata ai_name with
    | none => (.error "Not Found", store)
    | some info =>
      let tg_links := google_search_api fetch info.title
      let slug := slugOf clean_query
      let view_url := base_url ++ "/view/" ++ slug
      let new_data : Entry :=
        { search_term := clean_query
          title := info.title
          synopsis := info.synopsis
          thumbnail := info.image
          telegram_links := tg_links
          generated_url := view_url
          views := 0, likes := 0, dislikes := 0, reports := 0
          liked_ips := [], disliked_ips := [] }
      (.success "fetched_new" info.title tg_links view_url, insert_one store new_data)

/-- The update document of the `removed_like` branch (src/main.py line 227):
`$pull` from `liked_ips`, `$inc` likes by -1. -/
def likeRemove (user_ip : String) (a : Entry) : Entry :=
  { a with liked_ips := pull a.liked_ips user_ip, likes := a.likes - 1 }

/-- The update document of the `liked` branch (src/main.py lines 230-233):
`$addToSet` into `liked_ips`, `$inc` likes by 1, and, when the caller was in
the fetched document's `disliked_ips`, also `$pull` from `disliked_ips` and
`$inc` dislikes by -1.  `disliked_ips` is the list of the document as first
fetched. -/
def likeAdd (user_ip : String) (disliked_ips : List String) (a : Entry) : Entry :=
  let a1 := { a with liked_ips := addToSet a.liked_ips user_ip, likes := a.likes + 1 }
  if user_ip ∈ disliked_ips then
    { a1 with disliked_ips := pull a1.disliked_ips user_ip, dislikes := a1.dislikes - 1 }
  else a1

/-- The update document of the `removed_dislike` branch (src/main.py
line 239). -/
def dislikeRemove (user_ip : String) (a : Entry) : Entry :=
  { a with disliked_ips := pull a.disliked_ips user_ip, dislikes := a.dislikes - 1 }

/-- The update document of the `disliked` branch (src/main.py
lines 242-245). -/
def dislikeAdd (user_ip : String) (liked_ips : List String) (a : Entry) : Entry :=
  let a1 := { a with disliked_ips := addToSet a.disliked_ips user_ip, dislikes := a.dislikes + 1 }
  if user_ip ∈ liked_ips then
    { a1 with liked_ips := pull a1.liked_ips user_ip, likes := a1.likes - 1 }
  else a1

/-- The update document of the `reported` branch (src/main.py line 250). -/
def reportBump (a : Entry) : Entry := { a with reports := a.reports + 1 }

/-- `user_action` (src/main.py lines 215-253).  `user_ip` is the caller's
identity as computed by `get_client_ip`.  Returns the `status` string of the
JSON response together with the collection after the call.  The membership
tests are made on the document as first fetched, and each branch issues one
combined `update_one`, exactly as in the source. -/
def user_action (slug action user_ip : String) (store : Store) : String × Store :=
  let search_term := termOfSlug slug
  match find_one store search_term with
  | none => ("error", store)
  | some anime =>
    let liked_ips := anime.liked_ips
    let disliked_ips := anime.disliked_ips
    if action = "likes" then
      if user_ip ∈ liked_ips then
        ("removed_like", update_one store search_term (likeRemove user_ip))
      else
        ("liked", update_one store search_term (likeAdd user_ip disliked_ips))
    else if action = "dislikes" then
      if user_ip ∈ disliked_ips then
        ("removed_dislike", update_one store search_term (dislikeRemove user_ip))
      else
        ("disliked", update_one store search_term (dislikeAdd user_ip liked_ips))
    else if action = "reports" then
      ("reported", update_one store search_term reportBump)
    else
      ("ok", store)

/-- Apply a sequence of `(slug, action, ip)` requests to the store, in
order. -/
def applyActions (acts : List (String × String × String)) (store : Store) : Store :=
  acts.foldl (fun s t => (user_action t.1 t.2.1 t.2.2 s).2) store

/-- The vote invariant of a document (spec section 3): the counters agree
with the identity lists, the lists are duplicate-free, and no identity sits
in both lists. -/
def Inv (e : Entry) : Prop :=
  e.likes = (e.liked_ips.length : Int) ∧
  e.dislikes = (e.disliked_ips.length : Int) ∧
  e.liked_ips.Nodup ∧ e.disliked_ips.Nodup ∧
  ∀ x, x ∈ e.liked_ips → x ∉ e.disliked_ips

instance (e : Entry) : Decidable (Inv e) := by
  unfold Inv; infer_instance

/-- Store-wide vote invariant. -/
def StoreInv (s : Store) : Prop := ∀ e ∈ s, Inv e

instance (s : Store) : Decidable (StoreInv s) :=
  List.decidableBAll Inv s

/-! ### Lemmas about `pull` and `addToSet` -/

theorem mem_pull {l : List String} {x y : String} : y ∈ pull l x ↔ y ∈ l ∧ y ≠ x := by
  simp [pull, List.mem_filter]

theorem pull_nodup {l : List String} (h : l.Nodup) (x : String) : (pull l x).Nodup :=
  h.filter _

theorem pull_eq_self {l : List String} {x : String} (h : x ∉ l) : pull l x = l := by
  apply List.filter_eq_self.mpr
  intro y hy
  simp only [decide_eq_true_eq]
  rintro rfl
  exact h hy

theorem pull_eq_erase {l : List String} {x : String} (hn : l.Nodup) : pull l x = l.erase x := by
  rw [hn.erase_eq_filter x]
  unfold pull
  congr 1
  funext y
  simp only [bne, decide_not, ne_eq]
  congr 1

theorem length_pull {l : List String} {x : String} (hn : l.Nodup) (hm : x ∈ l) :
    (pull l x).length + 1 = l.length := by
  rw [pull_eq_erase hn, List.length_erase_of_mem hm]
  have h2 : 0 < l.length := List.length_pos_of_mem hm
  omega

theorem mem_addToSet {l : List String} {x y : String} :
    y ∈ addToSet l x ↔ y ∈ l ∨ y = x := by
  by_cases hx : x ∈ l
  · simp only [addToSet, if_pos hx]
    exact ⟨Or.inl, fun h => h.elim id (fun e => by rw [e]; exact hx)⟩
  · simp [addToSet, hx]

theorem addToSet_nodup {l : List String} (h : l.Nodup) (x : String) :
    (addToSet l x).Nodup := by
  by_cases hx : x ∈ l
  · simpa [addToSet, hx] using h
  · simp only [addToSet, if_neg hx]
    refine List.Nodup.append h (List.nodup_singleton x) ?_
    intro a ha hb
    rw [List.mem_singleton] at hb
    rw [hb] at ha
    exact hx ha

theorem length_addToSet {l : List String} {x : String} (hx : x ∉ l) :
    (addToSet l x).length = l.length + 1 := by
  simp [addToSet, hx]

/-! ### Lemmas about the store operations -/

theorem find_one_mem {s : Store} {k : String} {a : Entry} (h : find_one s k = some a) :
    a ∈ s := by
  induction s with
  | nil => simp [find_one] at h
  | cons e rest ih =>
    by_cases he : e.search_term = k
    · simp only [find_one, if_pos he, Option.some.injEq] at h
      rw [← h]
      exact List.mem_cons_self e rest
    · simp only [find_one, if_neg he] at h
      exact List.mem_cons_of_mem e (ih h)

theorem find_one_key {s : Store} {k : String} {a : Entry} (h : find_one s k = some a) :
    a.search_term = k := by
  induction s with
  | nil => simp [find_one] at h
  | cons e rest ih =>
    by_cases he : e.search_term = k
    · simp only [find_one, if_pos he, Option.some.injEq] at h
      rw [← h]
      exact he
    · simp only [find_one, if_neg he] at h
      exact ih h

theorem mem_update_one {s : Store} {k : String} {f : Entry → Entry} {e : Entry}
    (h : e ∈ update_one s k f) :
    e ∈ s ∨ ∃ a, find_one s k = some a ∧ e = f a := by
  induction s with
  | nil => simp [update_one] at h
  | cons b rest ih =>
    by_cases hb : b.search_term = k
    · simp only [update_one, if_pos hb] at h
      rcases List.mem_cons.mp h with rfl | h2
      · exact Or.inr ⟨b, by simp [find_one, hb], rfl⟩
      · exact Or.inl (List.mem_cons_of_mem b h2)
    · simp only [update_one, if_neg hb] at h
      rcases List.mem_cons.mp h with rfl | h2
      · exact Or.inl (List.mem_cons_self e rest)
      · rcases ih h2 with h3 | ⟨a, ha, he⟩
        · exact Or.inl (List.mem_cons_of_mem b h3)
        · exact Or.inr ⟨a, by simpa [find_one, hb] using ha, he⟩

theorem find_one_update_one {s : Store} {k : String} {f : Entry → Entry} {a : Entry}
    (h : find_one s k = some a) (hst : (f a).search_term = a.search_term) :
    find_one (update_one s k f) k = some (f a) := by
  induction s with
  | nil => simp [find_one] at h
  | cons e rest ih =>
    by_cases he : e.search_term = k
    · simp only [find_one, if_pos he, Option.some.injEq] at h
      subst h
      simp [update_one, if_pos he, find_one, hst.trans he]
    · simp only [find_one, if_neg he] at h
      simp [update_one, if_neg he, find_one, he, ih h]

theorem storeInv_update_one {s : Store} {k : String} {f : Entry → Entry}
    (h : StoreInv s) (hp : ∀ a, find_one s k = some a → Inv (f a)) :
    StoreInv (update_one s k f) := by
  intro e he
  rcases mem_update_one he with h2 | ⟨a, ha, rfl⟩
  · exact h e h2
  · exact hp a ha

/-! ### The vote-branch update documents preserve the invariant -/

theorem inv_likeRemove {a : Entry} {ip : String} (h : Inv a) (hm : ip ∈ a.liked_ips) :
    Inv (likeRemove ip a) := by
  obtain ⟨h1, h2, h3, h4, h5⟩ := h
  refine ⟨?_, h2, pull_nodup h3 ip, h4, ?_⟩
  · have := length_pull h3 hm
    simp only [likeRemove, h1]
    omega
  · intro x hx
    exact h5 x (mem_pull.mp hx).1

theorem inv_likeAdd {a : Entry} {ip : String} (h : Inv a) (hm : ip ∉ a.liked_ips) :
    Inv (likeAdd ip a.disliked_ips a) := by
  obtain ⟨h1, h2, h3, h4, h5⟩ := h
  by_cases hd : ip ∈ a.disliked_ips
  · simp only [likeAdd, if_pos hd]
    refine ⟨?_, ?_, addToSet_nodup h3 ip, pull_nodup h4 ip, ?_⟩
    · simp only [length_addToSet hm, h1]
      push_cast
      ring
    · have := length_pull h4 hd
      simp only [h2]
      omega
    · intro x hx
      rcases mem_addToSet.mp hx with hx2 | rfl
      · intro hc
        exact h5 x hx2 (mem_pull.mp hc).1
      · intro hc
        exact (mem_pull.mp hc).2 rfl
  · simp only [likeAdd, if_neg hd]
    refine ⟨?_, h2, addToSet_nodup h3 ip, h4, ?_⟩
    · simp only [length_addToSet hm, h1]
      push_cast
      ring
    · intro x hx
      rcases mem_addToSet.mp hx with hx2 | rfl
      · exact h5 x hx2
      · exact hd

theorem inv_dislikeRemove {a : Entry} {ip : String} (h : Inv a) (hm : ip ∈ a.disliked_ips) :
    Inv (dislikeRemove ip a) := by
  obtain ⟨h1, h2, h3, h4, h5⟩ := h
  refine ⟨h1, ?_, h3, pull_nodup h4 ip, ?_⟩
  · have := length_pull h4 hm
    simp only [dislikeRemove, h2]
    omega
  · intro x hx hc
    exact h5 x hx (mem_pull.mp hc).1

theorem inv_dislikeAdd {a : Entry} {ip : String} (h : Inv a) (hm : ip ∉ a.disliked_ips) :
    Inv (dislikeAdd ip a.liked_ips a) := by
  obtain ⟨h1, h2, h3, h4, h5⟩ := h
  by_cases hl : ip ∈ a.liked_ips
  · simp only [dislikeAdd, if_pos hl]
    refine ⟨?_, ?_, pull_nodup h3 ip, addToSet_nodup h4 ip, ?_⟩
    · have := length_pull h3 hl
      simp only [h1]
      omega
    · simp only [length_addToSet hm, h2]
      push_cast
      ring
    · intro x hx hc
      rcases mem_addToSet.mp hc with hc2 | rfl
      · exact h5 x (mem_pull.mp hx).1 hc2
      · exact (mem_pull.mp hx).2 rfl
  · simp only [dislikeAdd, if_neg hl]
    refine ⟨h1, ?_, h3, addToSet_nodup h4 ip, ?_⟩
    · simp only [length_addToSet hm, h2]
      push_cast
      ring
    · intro x hx hc
      rcases mem_addToSet.mp hc with hc2 | rfl
      · exact h5 x hx hc2
      · exact hl hx

theorem inv_reportBump {a : Entry} (h : Inv a) : Inv (reportBump a) := by
  obtain ⟨h1, h2, h3, h4, h5⟩ := h
  exact ⟨h1, h2, h3, h4, h5⟩

/-- One `user_action` call, whatever its slug, action string and caller
identity, maps an invariant-satisfying store to an invariant-satisfying
store. -/
theorem storeInv_user_action (slug act ip : String) {s : Store} (h : StoreInv s) :
    StoreInv (user_action slug act ip s).2 := by
  cases hf : find_one s (termOfSlug slug) with
  | none =>
    simp only [user_action, hf]
    exact h
  | some anime =>
    have hanime : Inv anime := h anime (find_one_mem hf)
    simp only [user_action, hf]
    by_cases h1 : act = "likes"
    · rw [if_pos h1]
      by_cases h2 : ip ∈ anime.liked_ips
      · rw [if_pos h2]
        refine storeInv_update_one h ?_
        intro a ha
        rw [hf] at ha
        injection ha with ha
        rw [← ha]
        exact inv_likeRemove hanime h2
      · rw [if_neg h2]
        refine storeInv_update_one h ?_
        intro a ha
        rw [hf] at ha
        injection ha with ha
        rw [← ha]
        exact inv_likeAdd hanime h2
    · rw [if_neg h1]
      by_cases h3 : act = "dislikes"
      · rw [if_pos h3]
        by_cases h4 : ip ∈ anime.disliked_ips
        · rw [if_pos h4]
          refine storeInv_update_one h ?_
          intro a ha
          rw [hf] at ha
          injection ha with ha
          rw [← ha]
          exact inv_dislikeRemove hanime h4
        · rw [if_neg h4]
          refine storeInv_update_one h ?_
          intro a ha
          rw [hf] at ha
          injection ha with ha
          rw [← ha]
          exact inv_dislikeAdd hanime h4
      · rw [if_neg h3]
        by_cases h5 : act = "reports"
        · rw [if_pos h5]
          refine storeInv_update_one h ?_
          intro a ha
          rw [hf] at ha
          injection ha with ha
          rw [← ha]
          exact inv_reportBump hanime
        · rw [if_neg h5]
          exact h

/-! ### Further infrastructure for the individual claims -/

/-- Equality of the vote state of two documents in the spec's sense: the two
counters agree and the two identity lists agree as sets. -/
def sameVote (a b : Entry) : Prop :=
  a.likes = b.likes ∧ a.dislikes = b.dislikes ∧
  a.liked_ips.toFinset = b.liked_ips.toFinset ∧
  a.disliked_ips.toFinset = b.disliked_ips.toFinset

instance (a b : Entry) : Decidable (sameVote a b) := by
  unfold sameVote; infer_instance

/-- Modelled from the spec (section 4.1): the slug is the normalized query
with every internal run of whitespace characters replaced by a single
hyphen.  Written only to be compared against `slugOf`, the slug the source
actually computes. -/
def specSlugChars : Bool → List Char → List Char
  | _, [] => []
  | prevWs, c :: rest =>
    if c.isWhitespace then
      if prevWs then specSlugChars true rest
      else '-' :: specSlugChars true rest
    else c :: specSlugChars false rest

/-- Modelled from the spec (section 4.1): slug with whitespace runs
collapsed to single hyphens. -/
def specSlug (s : String) : String := (specSlugChars false s.toList).asString

/-- Number of documents stored under a given `search_term`. -/
def countKey (s : Store) (k : String) : Nat :=
  (s.filter (fun e => e.search_term = k)).length

theorem likeRemove_search_term (ip : String) (a : Entry) :
    (likeRemove ip a).search_term = a.search_term := rfl

theorem likeAdd_search_term (ip : String) (d : List String) (a : Entry) :
    (likeAdd ip d a).search_term = a.search_term := by
  by_cases h : ip ∈ d <;> simp [likeAdd, h]

theorem dislikeRemove_search_term (ip : String) (a : Entry) :
    (dislikeRemove ip a).search_term = a.search_term := rfl

theorem dislikeAdd_search_term (ip : String) (l : List String) (a : Entry) :
    (dislikeAdd ip l a).search_term = a.search_term := by
  by_cases h : ip ∈ l <;> simp [dislikeAdd, h]

theorem user_action_likes_mem {s : Store} {slug ip : String} {e : Entry}
    (hf : find_one s (termOfSlug slug) = some e) (hl : ip ∈ e.liked_ips) :
    user_action slug "likes" ip s =
      ("removed_like", update_one s (termOfSlug slug) (likeRemove ip)) := by
  simp [user_action, hf, hl]

theorem user_action_likes_not_mem {s : Store} {slug ip : String} {e : Entry}
    (hf : find_one s (termOfSlug slug) = some e) (hl : ip ∉ e.liked_ips) :
    user_action slug "likes" ip s =
      ("liked", update_one s (termOfSlug slug) (likeAdd ip e.disliked_ips)) := by
  simp [user_action, hf, hl]

theorem user_action_dislikes_mem {s : Store} {slug ip : String} {e : Entry}
    (hf : find_one s (termOfSlug slug) = some e) (hd : ip ∈ e.disliked_ips) :
    user_action slug "dislikes" ip s =
      ("removed_dislike", update_one s (termOfSlug slug) (dislikeRemove ip)) := by
  simp [user_action, hf, hd]

theorem user_action_dislikes_not_mem {s : Store} {slug ip : String} {e : Entry}
    (hf : find_one s (termOfSlug slug) = some e) (hd : ip ∉ e.disliked_ips) :
    user_action slug "dislikes" ip s =
      ("disliked", update_one s (termOfSlug slug) (dislikeAdd ip e.liked_ips)) := by
  simp [user_action, hf, hd]

theorem find_one_append {s : Store} {k : String} (h : find_one s k = none) (d : Entry) :
    find_one (s ++ [d]) k = if d.search_term = k then some d else none := by
  induction s with
  | nil => simp [find_one]
  | cons e rest ih =>
    by_cases he : e.search_term = k
    · simp [find_one, he] at h
    · simp only [find_one, he] at h
      simpa only [List.cons_append, find_one, if_neg he] using ih h

theorem collectValid_all_invalid {valid : String → Bool} :
    ∀ (items : List String) (acc : List String), (∀ l ∈ items, valid l = false) →
      collectValid valid items acc = acc := by
  intro items
  induction items with
  | nil => intro acc _; rfl
  | cons link rest ih =>
    intro acc h
    have h1 : valid link = false := h link (List.mem_cons_self link rest)
    have h2 : ∀ l ∈ rest, valid l = false := fun l hl => h l (List.mem_cons_of_mem link hl)
    simp only [collectValid, h1, Bool.false_eq_true, if_false]
    split
    · rfl
    · exact ih acc h2

theorem toLower_of_whitespace {c : Char} (h : c.isWhitespace) : c.toLower = c := by
  simp only [Char.isWhitespace, Bool.or_eq_true, decide_eq_true_eq] at h
  rcases h with ((h | h) | h) | h <;> rw [h] <;> decide

theorem isWhitespace_toLower {c : Char} (h : c.isWhitespace) : c.toLower.isWhitespace := by
  rw [toLower_of_whitespace h]; exact h

theorem normalize_of_whitespace {q : String} (hq : ∀ c ∈ q.toList, c.isWhitespace) :
    normalize q = "" := by
  unfold normalize stripChars
  have h1 : List.dropWhile Char.isWhitespace (q.toList.map Char.toLower) = [] := by
    rw [List.dropWhile_eq_nil_iff]
    intro x hx
    rcases List.mem_map.mp hx with ⟨c, hc, rfl⟩
    exact isWhitespace_toLower (hq c hc)
  rw [h1]
  rfl

theorem string_ext {s t : String} (h : s.toList = t.toList) : s = t := by
  cases s
  cases t
  congr 1

theorem toList_asString (l : List Char) : l.asString.toList = l := rfl

theorem map_dash_ne_of_mem : ∀ {l : List Char}, '-' ∈ l →
    l.map (fun c => if c = '-' then ' ' else c) ≠ l := by
  intro l
  induction l with
  | nil => intro h; cases h
  | cons a t ih =>
    intro h hc
    rw [List.map_cons, List.cons.injEq] at hc
    rcases List.mem_cons.mp h with rfl | hm
    · simp only [if_pos rfl] at hc
      exact absurd hc.1 (by decide)
    · exact ih hm hc.2

/-! ### Concrete collaborators and documents used in closed statements -/

/-- A refiner that always fails (Groq exception): the raw query falls
through. -/
def oracleNone : String → Option String := fun _ => none

/-- A refiner that always answers a fixed name. -/
def oracleFixed : String → Option String := fun _ => some "Naruto"

/-- A metadata lookup that always fails or finds nothing. -/
def metaNone : String → Option AnimeInfo := fun _ => none

/-- A metadata lookup that always resolves to a fixed record. -/
def metaNaruto : String → Option AnimeInfo :=
  fun _ => some { title := "Naruto", synopsis := "syn", image := "img" }

/-- A link fetch whose request always fails. -/
def fetchNone : String → Option (List String) := fun _ => none

/-- A link fetch returning one qualifying link. -/
def fetchSome : String → Option (List String) := fun _ => some ["https://t.me/y"]

/-- A link fetch returning only links the strict filter rejects. -/
def fetchFacebook : String → Option (List String) :=
  fun _ => some ["https://facebook.com/x"]

/-- A freshly created document under the key "naruto". -/
def demoEntry : Entry :=
  { search_term := "naruto", title := "Naruto", synopsis := "syn", thumbnail := "img"
    telegram_links := ["https://t.me/x"], generated_url := "http://b/view/naruto"
    views := 0, likes := 0, dislikes := 0, reports := 0
    liked_ips := [], disliked_ips := [] }

/-- A document stored under the empty normalized key. -/
def wsEntry : Entry :=
  { search_term := "", title := "Blank", synopsis := "syn", thumbnail := "img"
    telegram_links := ["https://t.me/w"], generated_url := "http://b/view/"
    views := 0, likes := 0, dislikes := 0, reports := 0
    liked_ips := [], disliked_ips := [] }

/-- Like `demoEntry` but with 5 views. -/
def viewsEntryA : Entry := { demoEntry with views := 5 }

/-- Like `demoEntry` but with 99 views. -/
def viewsEntryB : Entry := { demoEntry with views := 99 }

/-! ### Claim C1 -/

/-- Claim C1: starting from any store whose documents satisfy the vote
invariant (every document the pipeline creates starts with zero counters
and empty identity lists, so satisfies it), after every sequence of
like/dislike/report requests through `user_action`, by any identities
against any slugs, every document still satisfies
`likes = |liked_ips|`, `dislikes = |disliked_ips|` (the lists stay
duplicate-free, so their length is their cardinality as sets) and no
identity is a member of both lists.  Any prefix of a sequence is a
sequence, so the invariant holds after each action. -/
theorem user_action_vote_invariant (acts : List (String × String × String))
    (s : Store) (h : StoreInv s) : StoreInv (applyActions acts s) := by
  induction acts generalizing s with
  | nil => exact h
  | cons t rest ih => exact ih _ (storeInv_user_action t.1 t.2.1 t.2.2 h)

/-- Witness for C1: a concrete store and a concrete action sequence. -/
theorem user_action_vote_invariant_witness :
    StoreInv [demoEntry] ∧
    StoreInv (applyActions
      [("naruto", "likes", "9.9.9.9"), ("naruto", "dislikes", "9.9.9.9"),
       ("naruto", "reports", "8.8.8.8"), ("naruto", "likes", "7.7.7.7")]
      [demoEntry]) :=
  ⟨by decide, user_action_vote_invariant _ _ (by decide)⟩

/-! ### Claim C3 -/

/-- Claim C3 counterexample: on an existing entry the unknown action string
"purge" is answered with status "ok" — not "error" and not any status of
the documented set — so the claim that unknown actions produce an
invalid-input error status is false (the store is indeed unchanged). -/
theorem unknown_action_not_error_counterexample :
    user_action "naruto" "purge" "1.2.3.4" [demoEntry] = ("ok", [demoEntry]) ∧
    (user_action "naruto" "purge" "1.2.3.4" [demoEntry]).1 ∉
      ["liked", "removed_like", "disliked", "removed_dislike", "reported", "error"] := by
  constructor <;> decide

/-- Claim C3 amended: an action string other than likes, dislikes and
reports, sent for an existing entry, returns status "ok" — a silent no-op
rather than an error status — and leaves the store completely unchanged. -/
theorem unknown_action_no_mutation (slug action ip : String) (s : Store) (e : Entry)
    (hf : find_one s (termOfSlug slug) = some e)
    (h1 : action ≠ "likes") (h2 : action ≠ "dislikes") (h3 : action ≠ "reports") :
    user_action slug action ip s = ("ok", s) := by
  simp [user_action, hf, h1, h2, h3]

/-- Witness for the amended C3 at a concrete entry and action string. -/
theorem unknown_action_no_mutation_witness :
    user_action "naruto" "purge" "5.5.5.5" [demoEntry] = ("ok", [demoEntry]) :=
  unknown_action_no_mutation "naruto" "purge" "5.5.5.5" [demoEntry] demoEntry
    (by decide) (by decide) (by decide) (by decide)

/-! ### Claim C4 -/

/-- Claim C4 counterexample: a whitespace-only raw query is NOT rejected
before the cache lookup.  First conjunct: with an entry stored under the
empty normalized key, the call answers with that entry's cache response —
the store was read and no validation error was raised.  Second conjunct:
on a miss with successful metadata resolution, a whitespace-only query even
persists a new entry. -/
theorem whitespace_query_not_rejected_counterexample :
    (search_anime oracleNone metaNone fetchNone "http://b" "   " [wsEntry]).1 =
      .success "database" "Blank" ["https://t.me/w"] "http://b/view/" ∧
    (search_anime oracleNone metaNaruto fetchNone "http://b" " " []).2 ≠ [] := by
  constructor <;> decide

/-- Claim C4 amended: there is no validation step for empty or
whitespace-only queries: such a query is normalized to the empty string and
follows the ordinary pipeline beginning with the cache lookup, so with a
stored entry under the empty key the call returns that entry's cache
response. -/
theorem whitespace_query_reaches_cache (r : String → Option String)
    (m : String → Option AnimeInfo) (g : String → Option (List String))
    (b q : String) (s : Store) (e : Entry)
    (hq : ∀ c ∈ q.toList, c.isWhitespace)
    (hf : find_one s "" = some e) :
    search_anime r m g b q s =
      (.success "database" e.title e.telegram_links e.generated_url, s) := by
  have hn : normalize q = "" := normalize_of_whitespace hq
  simp [search_anime, hn, hf]

/-- Witness for the amended C4 at the concrete query "  ". -/
theorem whitespace_query_reaches_cache_witness :
    search_anime oracleNone metaNone fetchNone "http://b" "  " [wsEntry] =
      (.success "database" wsEntry.title wsEntry.telegram_links wsEntry.generated_url,
       [wsEntry]) :=
  whitespace_query_reaches_cache oracleNone metaNone fetchNone "http://b" "  "
    [wsEntry] wsEntry (by decide) (by decide)

/-! ### Claim C5 -/

/-- Claim C5 counterexample: the cache-hit response does NOT include the
entry's current view count: two stores whose only entry differs only in
`views` (5 versus 99) produce identical responses, so no part of the
response carries the view count. -/
theorem cache_hit_no_views_counterexample :
    viewsEntryA.views = 5 ∧ viewsEntryB.views = 99 ∧
    viewsEntryA = { viewsEntryB with views := 5 } ∧
    (search_anime oracleNone metaNone fetchNone "http://b" "naruto" [viewsEntryA]).1 =
      (search_anime oracleNone metaNone fetchNone "http://b" "naruto" [viewsEntryB]).1 := by
  exact ⟨by decide, by decide, by decide, by decide⟩

/-- Claim C5 amended: on a cache hit the call returns immediately with
source "database" and the entry's stored title, links and website link —
but no view count — makes no external call (response and store are
independent of all three collaborator functions), and leaves the store
completely unchanged. -/
theorem cache_hit_frame (r1 r2 : String → Option String)
    (m1 m2 : String → Option AnimeInfo) (g1 g2 : String → Option (List String))
    (b q : String) (s : Store) (e : Entry)
    (hf : find_one s (normalize q) = some e) :
    search_anime r1 m1 g1 b q s =
      (.success "database" e.title e.telegram_links e.generated_url, s) ∧
    search_anime r1 m1 g1 b q s = search_anime r2 m2 g2 b q s := by
  constructor <;> simp [search_anime, hf]

/-- Witness for the amended C5: cache hit on "Naruto", compared across two
completely different collaborator triples. -/
theorem cache_hit_frame_witness :
    search_anime oracleNone metaNone fetchNone "http://b" "Naruto" [demoEntry] =
      (.success "database" demoEntry.title demoEntry.telegram_links
        demoEntry.generated_url, [demoEntry]) ∧
    search_anime oracleNone metaNone fetchNone "http://b" "Naruto" [demoEntry] =
      search_anime oracleFixed metaNaruto fetchSome "http://b" "Naruto" [demoEntry] :=
  cache_hit_frame oracleNone oracleFixed metaNone metaNaruto fetchNone fetchSome
    "http://b" "Naruto" [demoEntry] demoEntry (by decide)

/-! ### Claim C6 -/

/-- Claim C6: on a cache miss, when the metadata lookup for the refined
name returns nothing (covering both "not found" and any network or parse
failure, which `get_hd_anime_info` folds into returning None), the call
terminates with the error response and persists nothing: the store comes
back unchanged, so no entry exists for the normalized query. -/
theorem metadata_miss_nothing_persisted (r : String → Option String)
    (m : String → Option AnimeInfo) (g : String → Option (List String))
    (b q : String) (s : Store)
    (hmiss : find_one s (normalize q) = none)
    (hmeta : m (aiNameOf r q) = none) :
    search_anime r m g b q s = (.error "Not Found", s) := by
  simp [search_anime, hmiss, hmeta]

/-- Witness for C6 at a concrete query against the empty store. -/
theorem metadata_miss_nothing_persisted_witness :
    search_anime oracleNone metaNone fetchNone "http://b" "naruto" [] =
      (.error "Not Found", []) :=
  metadata_miss_nothing_persisted oracleNone metaNone fetchNone "http://b"
    "naruto" [] (by decide) (by decide)

/-! ### Claim C7 -/

/-- When the request fails or every returned link is rejected by the strict
filter, `google_search_api` substitutes the single placeholder link. -/
theorem google_api_fallback {g : String → Option (List String)} {title : String}
    (hg : ∀ items, g (title ++ " hindi dubbed site:t.me") = some items →
      ∀ l ∈ items, validLink l = false) :
    google_search_api g title = ["https://t.me/"] := by
  cases hgg : g (title ++ " hindi dubbed site:t.me") with
  | none => simp [google_search_api, hgg]
  | some items =>
    simp only [google_search_api, hgg]
    rw [collectValid_all_invalid items [] (hg items hgg)]
    rfl

/-- Claim C7: for every title, if the link fetch fails or yields zero links
qualifying under the inclusion/exclusion filter, the resolution does not
fail: the returned link list is exactly the single well-known fallback
placeholder, and on the pipeline's fetch path the persisted entry carries
exactly that one link. -/
theorem link_resolver_fallback :
    (∀ (g : String → Option (List String)) (title : String),
      (∀ items, g (title ++ " hindi dubbed site:t.me") = some items →
        ∀ l ∈ items, validLink l = false) →
      google_search_api g title = ["https://t.me/"]) ∧
    (∀ (r : String → Option String) (m : String → Option AnimeInfo)
        (g : String → Option (List String)) (b q : String) (s : Store)
        (info : AnimeInfo),
      find_one s (normalize q) = none →
      m (aiNameOf r q) = some info →
      (∀ items, g (info.title ++ " hindi dubbed site:t.me") = some items →
        ∀ l ∈ items, validLink l = false) →
      ∃ d : Entry,
        search_anime r m g b q s =
          (.success "fetched_new" info.title ["https://t.me/"]
            (b ++ "/view/" ++ slugOf (normalize q)), insert_one s d) ∧
        d.telegram_links = ["https://t.me/"]) := by
  constructor
  · intro g title hg
    exact google_api_fallback hg
  · intro r m g b q s info hmiss hmeta hg
    have hl := google_api_fallback hg
    refine ⟨{ search_term := normalize q, title := info.title
              synopsis := info.synopsis, thumbnail := info.image
              telegram_links := ["https://t.me/"]
              generated_url := b ++ "/view/" ++ slugOf (normalize q)
              views := 0, likes := 0, dislikes := 0, reports := 0
              liked_ips := [], disliked_ips := [] }, ?_, rfl⟩
    simp [search_anime, hmiss, hmeta, hl]

/-- Witness for C7: a fetch returning only a facebook link falls back, and
the pipeline on "naruto" with a failing fetch persists exactly the fallback
link. -/
theorem link_resolver_fallback_witness :
    google_search_api fetchFacebook "Naruto" = ["https://t.me/"] ∧
    ∃ d : Entry,
      search_anime oracleNone metaNaruto fetchNone "http://b" "naruto" [] =
        (.success "fetched_new" "Naruto" ["https://t.me/"]
          ("http://b" ++ "/view/" ++ slugOf (normalize "naruto")), insert_one [] d) ∧
      d.telegram_links = ["https://t.me/"] := by
  constructor
  · refine link_resolver_fallback.1 fetchFacebook "Naruto" ?_
    intro items h
    injection h with h
    rw [← h]
    decide
  · refine link_resolver_fallback.2 oracleNone metaNaruto fetchNone "http://b"
      "naruto" [] { title := "Naruto", synopsis := "syn", image := "img" }
      (by decide) (by decide) ?_
    intro items h
    cases h

/-! ### Claim C8 -/

/-- Claim C8 counterexample: the code's slug does NOT collapse whitespace
runs into a single hyphen: for the normalized query "a  b" (two internal
spaces) the code derives "a--b" while the spec's collapse-runs slug is
"a-b"; and an internal tab is not replaced at all, where the spec's slug
would use a hyphen. -/
theorem slug_not_collapsed_counterexample :
    normalize "A  B" = "a  b" ∧
    slugOf (normalize "A  B") = "a--b" ∧
    specSlug (normalize "A  B") = "a-b" ∧
    slugOf (normalize "A  B") ≠ specSlug (normalize "A  B") ∧
    slugOf "a\tb" = "a\tb" ∧ specSlug "a\tb" = "a-b" := by
  exact ⟨by decide, by decide, by decide, by decide, by decide, by decide⟩

/-- Claim C8 amended: the derived slug equals the normalized query with
each space character (and only spaces, not other whitespace) replaced by a
hyphen, one for one, so a run of k spaces becomes k hyphens; and the
canonical view URL stored with a newly persisted entry is the deterministic
function BASE_URL ++ "/view/" ++ slug of that slug. -/
theorem slug_per_space_and_url (r : String → Option String)
    (m : String → Option AnimeInfo) (g : String → Option (List String))
    (b q : String) (s : Store) (info : AnimeInfo)
    (hmiss : find_one s (normalize q) = none)
    (hmeta : m (aiNameOf r q) = some info) :
    (slugOf (normalize q)).toList =
      (normalize q).toList.map (fun c => if c = ' ' then '-' else c) ∧
    ∃ d : Entry,
      search_anime r m g b q s =
        (.success "fetched_new" info.title (google_search_api g info.title)
          (b ++ "/view/" ++ slugOf (normalize q)), insert_one s d) ∧
      d.generated_url = b ++ "/view/" ++ slugOf (normalize q) ∧
      d.search_term = normalize q := by
  constructor
  · rfl
  · refine ⟨{ search_term := normalize q, title := info.title
              synopsis := info.synopsis, thumbnail := info.image
              telegram_links := google_search_api g info.title
              generated_url := b ++ "/view/" ++ slugOf (normalize q)
              views := 0, likes := 0, dislikes := 0, reports := 0
              liked_ips := [], disliked_ips := [] }, ?_, rfl, rfl⟩
    simp [search_anime, hmiss, hmeta]

/-- Witness for the amended C8 at the concrete query "Dragon  Ball". -/
theorem slug_per_space_and_url_witness :
    (slugOf (normalize "Dragon  Ball")).toList =
      (normalize "Dragon  Ball").toList.map (fun c => if c = ' ' then '-' else c) ∧
    ∃ d : Entry,
      search_anime oracleNone metaNaruto fetchNone "http://b" "Dragon  Ball" [] =
        (.success "fetched_new" "Naruto"
          (google_search_api fetchNone "Naruto")
          ("http://b" ++ "/view/" ++ slugOf (normalize "Dragon  Ball")), insert_one [] d) ∧
      d.generated_url = "http://b" ++ "/view/" ++ slugOf (normalize "Dragon  Ball") ∧
      d.search_term = normalize "Dragon  Ball" :=
  slug_per_space_and_url oracleNone metaNaruto fetchNone "http://b" "Dragon  Ball"
    [] { title := "Naruto", synopsis := "syn", image := "img" } (by decide) (by decide)

/-! ### Claim C9 -/

/-- The document the pipeline computes for the query "naruto" from an empty
store, with `metaNaruto` metadata and a failing link fetch. -/
def narutoDoc : Entry :=
  { search_term := "naruto", title := "Naruto", synopsis := "syn", thumbnail := "img"
    telegram_links := ["https://t.me/"], generated_url := "http://b/view/naruto"
    views := 0, likes := 0, dislikes := 0, reports := 0
    liked_ips := [], disliked_ips := [] }

/-- Claim C9 counterexample: the insert step is NOT conditioned on
non-existence, so two concurrent first-time resolutions of "naruto" that
both read the initial empty store before either writes (interleaving:
read A, read B, write A, write B) each insert their document, leaving TWO
persisted documents for the key, not one; and the second run's own response
is a fresh "fetched_new" result computed by its own full pipeline, not a
resolution to the winner's entry — it never observes a failed insert,
since `insert_one` cannot fail. -/
theorem concurrent_create_duplicates_counterexample :
    find_one ([] : Store) (normalize "naruto") = none ∧
    (search_anime oracleNone metaNaruto fetchNone "http://b" "naruto" []).2 =
      insert_one [] narutoDoc ∧
    countKey
      (insert_one (search_anime oracleNone metaNaruto fetchNone "http://b" "naruto" []).2
        narutoDoc)
      (normalize "naruto") = 2 ∧
    (search_anime oracleNone metaNaruto fetchNone "http://b" "naruto" []).1 =
      .success "fetched_new" "Naruto" ["https://t.me/"] "http://b/view/naruto" := by
  exact ⟨by decide, by decide, by decide, by decide⟩

/-- Claim C9 amended: the store insert is unconditional: `insert_one`
appends the new document and never fails, even when a document with the
same `search_term` is already stored, so every resolution that misses the
cache adds one more document under its key — concurrent first-time
resolutions of the same query that all miss before the first write
therefore each persist an entry, and none observes an insert failure. -/
theorem insert_one_unconditional (s : Store) (d : Entry) (k : String)
    (hd : d.search_term = k) :
    countKey (insert_one s d) k = countKey s k + 1 := by
  simp [insert_one, countKey, List.filter_append, hd]

/-- Witness for the amended C9: inserting the "naruto" document into a
store that already holds a document with that key yields two. -/
theorem insert_one_unconditional_witness :
    countKey (insert_one [narutoDoc] narutoDoc) "naruto" =
      countKey [narutoDoc] "naruto" + 1 :=
  insert_one_unconditional [narutoDoc] narutoDoc "naruto" (by decide)

/-! ### Claim C10 -/

/-- A document stored under a key that itself contains a hyphen. -/
def spyEntry : Entry :=
  { search_term := "spy-family", title := "SpyFamily", synopsis := "syn", thumbnail := "img"
    telegram_links := ["https://t.me/s"], generated_url := "http://b/view/spy-family"
    views := 0, likes := 0, dislikes := 0, reports := 0
    liked_ips := [], disliked_ips := [] }

/-- Claim C10: slugging a normalized query (each space becomes a hyphen)
and recovering the search term (each hyphen becomes a space) returns the
original string exactly when the query contains no hyphen; when the query
itself contains a hyphen the round trip yields a different string, and the
action route — which looks the entry up under the recovered term — then
queries a key the entry is not stored under, answering status "error". -/
theorem slug_roundtrip (s : String) :
    ('-' ∉ s.toList → termOfSlug (slugOf s) = s) ∧
    ('-' ∈ s.toList → termOfSlug (slugOf s) ≠ s) ∧
    ('-' ∈ s.toList → ∀ (e : Entry) (ip : String), e.search_term = s →
      user_action (slugOf s) "likes" ip [e] = ("error", [e])) := by
  have hmap : (termOfSlug (slugOf s)).toList =
      s.toList.map (fun c => if c = '-' then ' ' else c) := by
    show (s.toList.map _).map _ = _
    rw [List.map_map]
    refine List.map_congr_left ?_
    intro c _
    by_cases h1 : c = ' '
    · rw [h1]; rfl
    · by_cases h2 : c = '-'
      · rw [h2]; rfl
      · simp [Function.comp, h1, h2]
  have hne : '-' ∈ s.toList → termOfSlug (slugOf s) ≠ s := by
    intro h hc
    apply map_dash_ne_of_mem h
    rw [← hmap, hc]
  refine ⟨?_, hne, ?_⟩
  · intro h
    apply string_ext
    rw [hmap]
    have h2 : ∀ c ∈ s.toList, (if c = '-' then ' ' else c) = c := by
      intro c hc
      refine if_neg ?_
      intro e
      rw [e] at hc
      exact h hc
    rw [List.map_congr_left h2]
    exact List.map_id' s.toList
  · intro h e ip he
    have hkey : ¬ e.search_term = termOfSlug (slugOf s) := by
      rw [he]
      intro hh
      exact hne h hh.symm
    simp [user_action, find_one, hkey]

/-- Witness for C10: a hyphen-free query round-trips; "spy-family" does
not, and the action route misses its entry. -/
theorem slug_roundtrip_witness :
    termOfSlug (slugOf "naruto shippuden") = "naruto shippuden" ∧
    termOfSlug (slugOf "spy-family") ≠ "spy-family" ∧
    user_action (slugOf "spy-family") "likes" "1.1.1.1" [spyEntry] =
      ("error", [spyEntry]) :=
  ⟨(slug_roundtrip "naruto shippuden").1 (by decide),
   (slug_roundtrip "spy-family").2.1 (by decide),
   (slug_roundtrip "spy-family").2.2 (by decide) spyEntry "1.1.1.1" (by decide)⟩

/-! ### Claim C2 -/

theorem pull_addToSet {l : List String} {ip : String} (h : ip ∉ l) :
    pull (addToSet l ip) ip = l := by
  rw [addToSet, if_neg h]
  unfold pull
  rw [List.filter_append]
  have h1 : List.filter (fun y => y ≠ ip) [ip] = [] := by simp
  rw [h1, List.append_nil]
  exact pull_eq_self h

theorem toFinset_addToSet_pull {l : List String} {ip : String} (h : ip ∈ l) :
    (addToSet (pull l ip) ip).toFinset = l.toFinset := by
  apply Finset.ext
  intro x
  simp only [List.mem_toFinset, mem_addToSet, mem_pull]
  constructor
  · rintro (⟨hx, _⟩ | rfl)
    · exact hx
    · exact h
  · intro hx
    by_cases hxip : x = ip
    · exact Or.inr hxip
    · exact Or.inl ⟨hx, hxip⟩

/-- The document of the C2 counterexample: the identity "1.1.1.1" currently
dislikes it; the invariant holds. -/
def dEntry : Entry :=
  { search_term := "naruto", title := "Naruto", synopsis := "syn", thumbnail := "img"
    telegram_links := ["https://t.me/x"], generated_url := "http://b/view/naruto"
    views := 0, likes := 0, dislikes := 1, reports := 0
    liked_ips := [], disliked_ips := ["1.1.1.1"] }

/-- The document after "1.1.1.1" sends `likes` twice to `dEntry`'s slug. -/
def dEntryAfter : Entry :=
  { search_term := "naruto", title := "Naruto", synopsis := "syn", thumbnail := "img"
    telegram_links := ["https://t.me/x"], generated_url := "http://b/view/naruto"
    views := 0, likes := 0, dislikes := 0, reports := 0
    liked_ips := [], disliked_ips := [] }

/-- Claim C2 counterexample: liking twice does NOT always return the vote
state to its original value.  For an entry whose identity currently
dislikes it (an invariant-satisfying, reachable state), the first `likes`
moves the identity out of `disliked_ips` (dislikes 1 → 0) and the second
removes the like again, ending at a state with no dislike recorded —
different from the original even up to set equality of the vote lists. -/
theorem like_twice_counterexample :
    Inv dEntry ∧
    applyActions [("naruto", "likes", "1.1.1.1"), ("naruto", "likes", "1.1.1.1")]
      [dEntry] = [dEntryAfter] ∧
    ¬ sameVote dEntryAfter dEntry := by
  exact ⟨by decide, by decide, by decide⟩

/-- Claim C2 amended: for an existing invariant-satisfying entry the toggle
laws hold away from the disliked state.  (a) If the identity does not
currently dislike the entry, `likes` twice returns the vote state — likes,
dislikes and both identity sets — to its original value.  (b) If the
identity currently sits in neither list, `likes` then `dislikes` moves the
identity from `liked_ips` to `disliked_ips`, with likes decremented by 1
and dislikes incremented by 1 relative to the state after the like (the
transition-table deltas of the dislike step). -/
theorem like_toggle_laws (slug ip : String) (s : Store) (e : Entry)
    (hf : find_one s (termOfSlug slug) = some e) (hinv : Inv e) :
    (ip ∉ e.disliked_ips →
      ∃ e2, find_one (applyActions [(slug, "likes", ip), (slug, "likes", ip)] s)
          (termOfSlug slug) = some e2 ∧ sameVote e2 e) ∧
    (ip ∉ e.liked_ips → ip ∉ e.disliked_ips →
      ∃ e1 e2,
        find_one (user_action slug "likes" ip s).2 (termOfSlug slug) = some e1 ∧
        find_one (user_action slug "dislikes" ip
          (user_action slug "likes" ip s).2).2 (termOfSlug slug) = some e2 ∧
        ip ∈ e1.liked_ips ∧ ip ∉ e1.disliked_ips ∧
        ip ∉ e2.liked_ips ∧ ip ∈ e2.disliked_ips ∧
        e2.likes = e1.likes - 1 ∧ e2.dislikes = e1.dislikes + 1) := by
  obtain ⟨hi1, hi2, hi3, hi4, hi5⟩ := hinv
  constructor
  · intro hd
    by_cases hl : ip ∈ e.liked_ips
    · -- originally liked: remove then re-add
      have step1 := user_action_likes_mem hf hl
      have hf1 : find_one (update_one s (termOfSlug slug) (likeRemove ip))
          (termOfSlug slug) = some (likeRemove ip e) :=
        find_one_update_one hf (likeRemove_search_term ip e)
      have hl1 : ip ∉ (likeRemove ip e).liked_ips := by
        intro hc
        exact (mem_pull.mp hc).2 rfl
      have step2 := user_action_likes_not_mem hf1 hl1
      have hd1 : ip ∉ (likeRemove ip e).disliked_ips := hd
      have he2 : likeAdd ip (likeRemove ip e).disliked_ips (likeRemove ip e) =
          { e with liked_ips := addToSet (pull e.liked_ips ip) ip,
                   likes := e.likes - 1 + 1 } := by
        simp [likeAdd, likeRemove, hd]
      refine ⟨likeAdd ip (likeRemove ip e).disliked_ips (likeRemove ip e), ?_, ?_⟩
      · show find_one (user_action slug "likes" ip
            (user_action slug "likes" ip s).2).2 (termOfSlug slug) = _
        rw [step1]
        show find_one (user_action slug "likes" ip
            (update_one s (termOfSlug slug) (likeRemove ip))).2 (termOfSlug slug) = _
        rw [step2]
        exact find_one_update_one hf1
          (likeAdd_search_term ip (likeRemove ip e).disliked_ips (likeRemove ip e))
      · rw [he2]
        refine ⟨by push_cast; ring, rfl, ?_, rfl⟩
        exact toFinset_addToSet_pull hl
    · -- originally not voted: add then remove
      have step1 := user_action_likes_not_mem hf hl
      have he1 : likeAdd ip e.disliked_ips e =
          { e with liked_ips := addToSet e.liked_ips ip, likes := e.likes + 1 } := by
        simp [likeAdd, hd]
      have hf1 : find_one (update_one s (termOfSlug slug) (likeAdd ip e.disliked_ips))
          (termOfSlug slug) = some (likeAdd ip e.disliked_ips e) :=
        find_one_update_one hf (likeAdd_search_term ip e.disliked_ips e)
      have hl1 : ip ∈ (likeAdd ip e.disliked_ips e).liked_ips := by
        rw [he1]
        exact mem_addToSet.mpr (Or.inr rfl)
      have step2 := user_action_likes_mem hf1 hl1
      refine ⟨likeRemove ip (likeAdd ip e.disliked_ips e), ?_, ?_⟩
      · show find_one (user_action slug "likes" ip
            (user_action slug "likes" ip s).2).2 (termOfSlug slug) = _
        rw [step1]
        show find_one (user_action slug "likes" ip
            (update_one s (termOfSlug slug) (likeAdd ip e.disliked_ips))).2
            (termOfSlug slug) = _
        rw [step2]
        exact find_one_update_one hf1
          (likeRemove_search_term ip (likeAdd ip e.disliked_ips e))
      · rw [he1]
        unfold likeRemove
        refine ⟨by push_cast; ring, rfl, ?_, rfl⟩
        show (pull (addToSet e.liked_ips ip) ip).toFinset = _
        rw [pull_addToSet hl]
  · intro hl hd
    have step1 := user_action_likes_not_mem hf hl
    have he1 : likeAdd ip e.disliked_ips e =
        { e with liked_ips := addToSet e.liked_ips ip, likes := e.likes + 1 } := by
      simp [likeAdd, hd]
    have hf1 : find_one (update_one s (termOfSlug slug) (likeAdd ip e.disliked_ips))
        (termOfSlug slug) = some (likeAdd ip e.disliked_ips e) :=
      find_one_update_one hf (likeAdd_search_term ip e.disliked_ips e)
    have hl1 : ip ∈ (likeAdd ip e.disliked_ips e).liked_ips := by
      rw [he1]
      exact mem_addToSet.mpr (Or.inr rfl)
    have hd1 : ip ∉ (likeAdd ip e.disliked_ips e).disliked_ips := by
      rw [he1]
      exact hd
    have step2 := user_action_dislikes_not_mem hf1 hd1
    have he2 : dislikeAdd ip (likeAdd ip e.disliked_ips e).liked_ips
        (likeAdd ip e.disliked_ips e) =
        { e with liked_ips := pull (addToSet e.liked_ips ip) ip,
                 likes := e.likes + 1 - 1,
                 disliked_ips := addToSet e.disliked_ips ip,
                 dislikes := e.dislikes + 1 } := by
      rw [he1]
      simp [dislikeAdd, mem_addToSet]
    refine ⟨likeAdd ip e.disliked_ips e,
      dislikeAdd ip (likeAdd ip e.disliked_ips e).liked_ips (likeAdd ip e.disliked_ips e),
      ?_, ?_, hl1, hd1, ?_, ?_, ?_, ?_⟩
    · rw [step1]
      exact hf1
    · rw [step1]
      show find_one (user_action slug "dislikes" ip
          (update_one s (termOfSlug slug) (likeAdd ip e.disliked_ips))).2
          (termOfSlug slug) = _
      rw [step2]
      exact find_one_update_one hf1
        (dislikeAdd_search_term ip (likeAdd ip e.disliked_ips e).liked_ips
          (likeAdd ip e.disliked_ips e))
    · rw [he2, pull_addToSet hl]
      exact hl
    · rw [he2]
      exact mem_addToSet.mpr (Or.inr rfl)
    · rw [he2, he1]
    · rw [he2, he1]

/-- Witness for the amended C2 at a fresh entry and a new identity. -/
theorem like_toggle_laws_witness :
    (∃ e2, find_one (applyActions
        [("naruto", "likes", "3.3.3.3"), ("naruto", "likes", "3.3.3.3")] [demoEntry])
        (termOfSlug "naruto") = some e2 ∧ sameVote e2 demoEntry) ∧
    (∃ e1 e2,
      find_one (user_action "naruto" "likes" "3.3.3.3" [demoEntry]).2
        (termOfSlug "naruto") = some e1 ∧
      find_one (user_action "naruto" "dislikes" "3.3.3.3"
        (user_action "naruto" "likes" "3.3.3.3" [demoEntry]).2).2
        (termOfSlug "naruto") = some e2 ∧
      "3.3.3.3" ∈ e1.liked_ips ∧ "3.3.3.3" ∉ e1.disliked_ips ∧
      "3.3.3.3" ∉ e2.liked_ips ∧ "3.3.3.3" ∈ e2.disliked_ips ∧
      e2.likes = e1.likes - 1 ∧ e2.dislikes = e1.dislikes + 1) := by
  have h := like_toggle_laws "naruto" "3.3.3.3" [demoEntry] demoEntry
    (by decide) (by decide)
  exact ⟨h.1 (by decide), h.2 (by decide) (by decide)⟩

end AnimeApi
